import Mathlib

/-!
# windows-defender plugin (`scan.go`): a shallow embedding

The Go program is embedded as pure Lean functions.

* A Go `error` value is `Option GoError`: `none` is the nil error.
* The process state the program touches (working directory, the global
  `path`, the results of the external calls it makes) is an explicit `World`.
* `log.Fatal` (reached through `assert`) ends the process with `os.Exit`, so
  deferred calls do not run: such a path ends in `Outcome.fatal`.
* Debug/info/error logging has no effect on the state modelled here and is
  left out, except where a log call ends the process.
-/

namespace WinDef

/-! ## Data model (`scan.go` lines 36-52) -/

/-- A non-nil Go `error` value, identified by its message. -/
structure GoError where
  msg : String
  deriving DecidableEq, Repr

/-- Go type `ResultsData` (`scan.go` lines 47-52). -/
structure ResultsData where
  Infected : Bool
  Result : String
  Engine : String
  Updated : String
  deriving DecidableEq, Repr

/-- The Go zero value `ResultsData{}`: `false` and three empty strings. -/
def ResultsData.zero : ResultsData :=
  { Infected := false, Result := "", Engine := "", Updated := "" }

/-- Go type `WindowsDefender` (`scan.go` lines 42-44). -/
structure WindowsDefender where
  Results : ResultsData
  deriving DecidableEq, Repr

/-! ## `ParseWinDefOutput` (`scan.go` lines 97-120) -/

/-- Source function `ParseWinDefOutput(windefout string, err error)`.

`if err != nil { return ResultsData{}, err }`; otherwise the output is only
passed to a debug log call and the function returns
`ResultsData{Infected: false}, nil`. A composite literal that names only
`Infected` leaves the other fields at their zero value `""`. -/
def ParseWinDefOutput (windefout : String) (err : Option GoError) :
    ResultsData × Option GoError :=
  match err with
  | some e => (ResultsData.zero, some e)
  | none =>
    -- log.WithFields(...).Debug("Windows Defender Output: ", windefout)
    let _logged := windefout
    let windef : ResultsData := { ResultsData.zero with Infected := false }
    (windef, none)

/-- The transcript quoted in the comment of `ParseWinDefOutput`
(`scan.go` lines 102-105): the scanner output for the EICAR test file. -/
def eicarTranscript : String :=
  "main(): The map file wasn't found, symbols wont be available\n" ++
  "main(): Scanning /malware/EICAR...\n" ++
  "EngineScanCallback(): Scanning input\n" ++
  "EngineScanCallback(): Threat Virus:DOS/EICAR_Test_File identified.\n"

/-! ## Process state and `AvScan` (`scan.go` lines 54-94) -/

/-- The part of the process state and environment that `scan.go` reads or
writes. The fields after `path` are the answers of the calls that leave the
program (operating system, scanner subprocess, document store); they are
parameters of the model. -/
structure World where
  /-- Current working directory of the process. -/
  cwd : String
  /-- Directories that `os.Chdir` can enter. -/
  dirs : List String
  /-- Go package variable `path` (`scan.go` line 29). -/
  path : String
  /-- Error of `os.Getwd`, nil when it succeeds. -/
  getwdErr : Option GoError
  /-- Answer of `utils.RunCommand(ctx, cmd, arg)` as a function of the working
  directory, the timeout in seconds, the command and its argument. A timeout
  or a failed start is a non-nil error. -/
  runCommand : String → Int → String → String → String × Option GoError
  /-- Temporary files currently staged in `/malware`. -/
  tmpFiles : List String
  /-- Answer of `ioutil.TempFile("/malware", "web_")`: a fresh name or an error. -/
  tempFile : Except GoError String
  /-- Error of `tmpfile.Write`, nil when it succeeds. -/
  tmpWriteErr : Option GoError
  /-- Error of `tmpfile.Close`, nil when it succeeds. -/
  tmpCloseErr : Option GoError
  /-- Error of `json.NewEncoder(w).Encode`, nil when it succeeds. -/
  encodeErr : Option GoError
  /-- Environment variables; `os.Getenv` gives `""` for an unset one. -/
  env : String → String
  /-- Answer of `filepath.Abs`. -/
  absPath : String → Except GoError String
  /-- Paths for which `os.Stat` does not report "does not exist". -/
  fileExists : String → Bool
  /-- Answer of `utils.GetSHA256`. -/
  sha256 : String → String
  /-- Whether the document-store client ends the process on this write. -/
  dbFatal : Option GoError

/-- How a call ends: it returns a value, or `log.Fatal` ends the process
(`os.Exit(1)`: deferred calls are skipped). Both carry the state left behind. -/
inductive Outcome (α : Type) where
  | returned (v : α) (w : World)
  | fatal (err : GoError) (w : World)

/-- The state a call leaves behind, on either kind of exit. -/
def Outcome.world {α : Type} : Outcome α → World
  | .returned _ w => w
  | .fatal _ w => w

/-- Go `os.Chdir(dir)`: enters `dir` when it can be entered, otherwise reports an
error and leaves the working directory alone. -/
def osChdir (dir : String) (w : World) : Option GoError × World :=
  if dir ∈ w.dirs then (none, { w with cwd := dir })
  else (some ⟨"chdir " ++ dir ++ ": no such file or directory"⟩, w)

/-- Go `os.Getwd()`: the working directory, or an error. -/
def osGetwd (w : World) : String × Option GoError :=
  match w.getwdErr with
  | some e => ("", some e)
  | none => (w.cwd, none)

/-- Source function `AvScan(timeout int)` (`scan.go` lines 65-94).

`assert(err)` with a non-nil error is `log.Fatal`, which exits the process, so
the deferred `os.Chdir("/malware")` runs only on the normal return. The
deferred call is registered after the first `os.Chdir` succeeded and its own
error result is discarded. -/
def AvScan (timeout : Int) (w : World) : Outcome WindowsDefender :=
  -- if err := os.Chdir("/loadlibrary"); err != nil { assert(err) }
  match osChdir "/loadlibrary" w with
  | (some e, w1) => .fatal e w1
  | (none, w1) =>
    -- defer os.Chdir("/malware")
    -- pwd, err := os.Getwd(); if err != nil { assert(err) }
    match osGetwd w1 with
    | (_, some e) => .fatal e w1
    | (_pwd, none) =>
      -- results, err := ParseWinDefOutput(utils.RunCommand(ctx, "./mpclient", path))
      let out := w1.runCommand w1.cwd timeout "./mpclient" w1.path
      match ParseWinDefOutput out.1 out.2 with
      | (_, some e) => .fatal e w1          -- assert(err)
      | (results, none) =>
        -- return WindowsDefender{Results: results}, then the deferred chdir
        .returned { Results := results } (osChdir "/malware" w1).2

/-! ## The web handler `webAvScan` (`scan.go` lines 171-209) -/

/-- An uploaded file part, as the `multipart.File` and the
`*multipart.FileHeader` of the library present it: its bytes, the file name in
its header, and the error of `FileHeader.Open()`, nil when the part can be
opened. A part that cannot be opened is a file value that is not nil and whose
reads fail. -/
structure Upload where
  content : String
  filename : String
  openErr : Option GoError
  deriving DecidableEq, Repr

/-- The request as the handler reads it: the file parts of the multipart form
by field name, or the error of `ParseMultipartForm` when the body cannot be
read as a multipart form. -/
structure Request where
  form : Except GoError (List (String × Upload))

/-- Go `r.FormFile(key)` of `net/http`, returning the file (with its header)
and the error:

* `ParseMultipartForm` fails: `return nil, nil, err`;
* the form has file parts under `key`:
  `f, err := fhs[0].Open(); return f, fhs[0], err`, so a part that cannot be
  opened comes back as a file and a header that are not nil together with a
  non-nil error;
* otherwise `return nil, nil, ErrMissingFile`. -/
def Request.FormFile (r : Request) (key : String) : Option Upload × Option GoError :=
  match r.form with
  | .error e => (none, some e)
  | .ok parts =>
    match parts.lookup key with
    | some f => (some f, f.openErr)
    | none => (none, some ⟨"http: no such file"⟩)

/-- A piece of a response body: plain text, or the JSON encoding of a scan
result followed by a newline. -/
inductive Chunk where
  | text (s : String)
  | json (v : WindowsDefender)
  deriving DecidableEq, Repr

/-- What the handler has written to its `http.ResponseWriter`. -/
structure ResponseWriter where
  /-- Status code of the response, once the header is written. -/
  status : Option Nat
  /-- Header fields set before the header was written. -/
  header : List (String × String)
  body : List Chunk
  deriving DecidableEq, Repr

/-- A fresh response: nothing written yet. -/
def ResponseWriter.fresh : ResponseWriter := { status := none, header := [], body := [] }

/-- Go `w.WriteHeader(code)`: the first call fixes the status code. -/
def ResponseWriter.WriteHeader (rw : ResponseWriter) (code : Nat) : ResponseWriter :=
  match rw.status with
  | none => { rw with status := some code }
  | some _ => rw

/-- Go `w.Header().Set(k, v)`: takes effect when the header is not yet written. -/
def ResponseWriter.SetHeader (rw : ResponseWriter) (k v : String) : ResponseWriter :=
  match rw.status with
  | none => { rw with header := rw.header ++ [(k, v)] }
  | some _ => rw

/-- Go `w.Write`: writes the header with status 200 when none was written,
then appends to the body. -/
def ResponseWriter.Write (rw : ResponseWriter) (c : Chunk) : ResponseWriter :=
  let rw1 := rw.WriteHeader 200
  { rw1 with body := rw1.body ++ [c] }

/-- How a run of the program ends: it returns, a run-time panic unwinds it, or
`log.Fatal` exits the process. -/
inductive Exit where
  | returned
  | panicked
  | fatal (err : GoError)
  deriving DecidableEq, Repr

/-- The observable result of one call of the handler. -/
structure HandlerRun where
  resp : ResponseWriter
  world : World
  /-- Number of calls of `AvScan`. -/
  scans : Nat
  exit : Exit

/-- Source function `webAvScan(w, r)` (`scan.go` lines 171-209).

The branch `if err != nil` writes status 400 and the message and logs the
error; it has no `return`, so control falls through to `defer file.Close()`.
With `file` the nil interface value that statement is a run-time panic (and
so is the read of `header.Filename` on line 182, `header` being the nil
pointer). With a file that is not nil the handler goes on after the error:
`ioutil.ReadAll` on a part that could not be opened yields no bytes and an
error that line 192 overwrites. The deferred `os.Remove` runs on a return and
is skipped by `log.Fatal`. -/
def webAvScan (rw : ResponseWriter) (r : Request) (w : World) : HandlerRun :=
  -- r.ParseMultipartForm(32 << 20); file, header, err := r.FormFile("malware")
  let (file, err) := r.FormFile "malware"
  let rw0 :=
    match err with
    | some _ =>
      -- w.WriteHeader(http.StatusBadRequest); fmt.Fprintln(w, ...); log.Error(err)
      (rw.WriteHeader 400).Write (.text "Please supply a valid file to scan.\n")
    | none => rw
  -- defer file.Close(); log.Debug("Uploaded fileName: ", header.Filename)
  match file with
  | none => { resp := rw0, world := w, scans := 0, exit := .panicked }
  | some file =>
    -- tmpfile, err := ioutil.TempFile("/malware", "web_")
    match w.tempFile with
    | .error e => { resp := rw0, world := w, scans := 0, exit := .fatal e }
    | .ok tmpName =>
      let w1 := { w with tmpFiles := tmpName :: w.tmpFiles }
      -- defer os.Remove(tmpfile.Name())
      -- data, err := ioutil.ReadAll(file); tmpfile.Write(data)
      let _data := match file.openErr with
        | some _ => ""
        | none => file.content
      match w1.tmpWriteErr with
      | some e => { resp := rw0, world := w1, scans := 0, exit := .fatal e }
      | none =>
        match w1.tmpCloseErr with
        | some e => { resp := rw0, world := w1, scans := 0, exit := .fatal e }
        | none =>
          -- path = tmpfile.Name(); windef := AvScan(60)
          let w2 := { w1 with path := tmpName }
          match AvScan 60 w2 with
          | .fatal e w3 => { resp := rw0, world := w3, scans := 1, exit := .fatal e }
          | .returned windef w3 =>
            let rw1 := rw0.SetHeader "Content-Type" "application/json; charset=UTF-8"
            let rw2 := rw1.WriteHeader 200
            -- json.NewEncoder(w).Encode(windef)
            match w3.encodeErr with
            | some e => { resp := rw2, world := w3, scans := 1, exit := .fatal e }
            | none =>
              { resp := rw2.Write (.json windef)
                world := { w3 with tmpFiles := w3.tmpFiles.erase tmpName }
                scans := 1
                exit := .returned }

/-! ## The command-line action (`scan.go` lines 224-256 and 275-325) -/

/-- The parsed command line: the value of each flag declared in `app.Flags`
and the positional arguments. -/
structure Context where
  verbose : Bool
  table : Bool
  callback : Bool
  proxy : Bool
  elasitcsearch : String
  timeout : Int
  args : List String

/-- Go `c.Bool(name)` of `urfave/cli`: the value of the boolean flag declared
under `name` (each flag is declared under its long and its short name), and
`false` for a name that no boolean flag declares. -/
def Context.Bool (c : Context) (name : String) : Bool :=
  if name = "verbose" ∨ name = "V" then c.verbose
  else if name = "table" ∨ name = "t" then c.table
  else if name = "callback" ∨ name = "c" then c.callback
  else if name = "proxy" ∨ name = "x" then c.proxy
  else false

/-- Go `c.Int(name)`: the value of the integer flag declared under `name`, and
`0` for a name that no integer flag declares. -/
def Context.Int (c : Context) (name : String) : Int :=
  if name = "timeout" then c.timeout else 0

/-- Something the action sends to one of its sinks. -/
inductive Event where
  | dbInit (addr : String)
  | dbWrite (id name category : String) (data : ResultsData)
  | printTable (v : WindowsDefender)
  | printJSON (v : WindowsDefender)
  | post (endpoint : String) (proxy : Option String) (maliceID : String) (body : WindowsDefender)
  deriving DecidableEq, Repr

/-- Whether an event is an HTTP POST to the webhook. -/
def Event.isPost : Event → Bool
  | .post _ _ _ _ => true
  | _ => false

/-- The observable result of one run of the action. -/
structure ActionRun where
  events : List Event
  world : World
  exit : Exit

/-- Go `utils.Getopt(name, dfault)`: the environment variable, or the default
when it is empty. -/
def Getopt (w : World) (name dfault : String) : String :=
  if w.env name = "" then dfault else w.env name

/-- Source function `app.Action` of `main` (`scan.go` lines 275-325). -/
def Action (c : Context) (w : World) : ActionRun :=
  -- if c.Bool("verbose") { log.SetLevel(log.DebugLevel) }
  match c.args with
  | [] =>
    { events := [], world := w
      exit := .fatal ⟨"Please supply a file to scan with malice/windef"⟩ }
  | first :: _ =>
    -- path, err = filepath.Abs(c.Args().First()); assert(err)
    match w.absPath first with
    | .error e => { events := [], world := w, exit := .fatal e }
    | .ok p =>
      let w1 := { w with path := p }
      -- if _, err = os.Stat(path); os.IsNotExist(err) { assert(err) }
      if !w1.fileExists p then
        { events := [], world := w1
          exit := .fatal ⟨"stat " ++ p ++ ": no such file or directory"⟩ }
      else
        match AvScan (c.Int "timeout") w1 with
        | .fatal e w2 => { events := [], world := w2, exit := .fatal e }
        | .returned windef w2 =>
          -- upsert into Database
          let id := Getopt w2 "MALICE_SCANID" (w2.sha256 w2.path)
          let db := [Event.dbInit c.elasitcsearch,
                     Event.dbWrite id "windows-defender" "av" windef.Results]
          match w2.dbFatal with
          | some e => { events := db, world := w2, exit := .fatal e }
          | none =>
            if c.Bool "table" then
              { events := db ++ [.printTable windef], world := w2, exit := .returned }
            else if c.Bool "post" then
              let px := if c.Bool "proxy" then some (w2.env "MALICE_PROXY") else none
              { events := db ++ [.post (w2.env "MALICE_ENDPOINT") px id windef]
                world := w2, exit := .returned }
            else
              { events := db ++ [.printJSON windef], world := w2, exit := .returned }

/-- A request whose multipart form has the parts `parts`. -/
def requestWith (parts : List (String × Upload)) : Request := { form := .ok parts }

/-- A request whose form has no part `malware`, only a part `other`. -/
def noMalwareRequest : Request := requestWith [("other", ⟨"data", "a.bin", none⟩)]

/-- A request whose part `malware` was spilled to disk and cannot be opened
any more: `r.FormFile` returns its file and header with a non-nil error. -/
def brokenUploadRequest : Request :=
  requestWith
    [("malware", ⟨"data", "a.bin", some ⟨"open /tmp/multipart-1: no such file or directory"⟩⟩)]

/-- A command line with the callback flag set, the table flag not set, and a
file argument. -/
def callbackContext : Context :=
  { verbose := false, table := false, callback := true, proxy := false
    elasitcsearch := "", timeout := 60, args := ["/malware/EICAR"] }

/-- A world for examples: the process starts in `/tmp`, the three directories
exist, every external call succeeds and the scanner prints `out`. -/
def sampleWorld (out : String) : World :=
  { cwd := "/tmp"
    dirs := ["/loadlibrary", "/malware", "/tmp"]
    path := "/malware/EICAR"
    getwdErr := none
    runCommand := fun _ _ _ _ => (out, none)
    tmpFiles := []
    tempFile := .ok "/malware/web_123"
    tmpWriteErr := none
    tmpCloseErr := none
    encodeErr := none
    env := fun _ => ""
    absPath := fun p => .ok p
    fileExists := fun _ => true
    sha256 := fun _ => "sha"
    dbFatal := none }

/-! ## `getUpdatedDate` and `parseUpdatedDate` (`scan.go` lines 122-135)

`time.Parse` and `fmt.Sprintf` belong to the Go standard library. They are
modelled here for the one layout and the one format string the program uses.
A Go string is a byte sequence; the model reads a `String` character by
character. A character outside `'0'..'9'` is never a digit in either reading
and every position of the value has to be a digit for the parse to succeed, so
the two readings accept the same inputs with the same field values. -/

/-- The calendar fields of a Go `time.Time` in UTC, as `Year()`, `Month()`,
`Day()`, `Hour()` and `Minute()` report them. -/
structure Time where
  year : Nat
  month : Nat
  day : Nat
  hour : Nat
  minute : Nat
  deriving DecidableEq, Repr

/-- The zero `time.Time{}`: January 1, year 1, 00:00 UTC. -/
def Time.zero : Time := { year := 1, month := 1, day := 1, hour := 0, minute := 0 }

/-- The test `'0' <= c && c <= '9'` of the Go time package. -/
def dig (c : Char) : Bool := decide ('0' ≤ c) && decide (c ≤ '9')

/-- Go `time.isDigit(s, i)`: position `i` exists and holds `'0'..'9'`. -/
def isDigit (s : List Char) (i : Nat) : Bool :=
  match s.get? i with
  | none => false
  | some c => dig c

/-- The value `int(c - '0')` of a digit character. -/
def digitVal (c : Char) : Nat := c.toNat - '0'.toNat

/-- Go `time.getnum(s, fixed)`: one or two leading digits; with `fixed` exactly
two are required. `none` is `errBad`. -/
def getnum (s : List Char) (fixed : Bool) : Option (Nat × List Char) :=
  if !isDigit s 0 then none
  else if !isDigit s 1 then
    if fixed then none
    else
      match s with
      | c :: rest => some (digitVal c, rest)
      | [] => none
  else
    match s with
    | c0 :: c1 :: rest => some (digitVal c0 * 10 + digitVal c1, rest)
    | _ => none

/-- Go `time.atoi` on a slice that starts with a digit: every character has to
be a digit; the value is read in base ten. -/
def atoi (p : List Char) : Option Nat :=
  if p.all dig then
    some (p.foldl (fun acc c => acc * 10 + digitVal c) 0)
  else none

/-- Go `time.isLeap`. -/
def isLeap (year : Nat) : Bool :=
  year % 4 == 0 && (year % 100 != 0 || year % 400 == 0)

/-- Go table `time.daysBefore`: days before the start of each month in a
non-leap year, with the year total as last entry. -/
def daysBefore : List Nat :=
  [0, 31, 31 + 28, 31 + 28 + 31, 31 + 28 + 31 + 30, 31 + 28 + 31 + 30 + 31,
   31 + 28 + 31 + 30 + 31 + 30, 31 + 28 + 31 + 30 + 31 + 30 + 31,
   31 + 28 + 31 + 30 + 31 + 30 + 31 + 31, 31 + 28 + 31 + 30 + 31 + 30 + 31 + 31 + 30,
   31 + 28 + 31 + 30 + 31 + 30 + 31 + 31 + 30 + 31,
   31 + 28 + 31 + 30 + 31 + 30 + 31 + 31 + 30 + 31 + 30,
   31 + 28 + 31 + 30 + 31 + 30 + 31 + 31 + 30 + 31 + 30 + 31]

/-- Go `time.daysIn(m, year)`, for `1 ≤ m ≤ 12`. -/
def daysIn (m : Nat) (year : Nat) : Nat :=
  if m == 2 && isLeap year then 29
  else daysBefore.getD m 0 - daysBefore.getD (m - 1) 0

/-- Go `time.Parse("200601021504", value)`. The layout splits into the chunks
`2006` (four-digit year), `01` (two-digit month), `02` (two-digit day), `15`
(hour) and `04` (two-digit minute), read in this order; a range error or a
syntax error in a chunk ends the parse at that chunk, text left over after
the last chunk is an error, and the day is checked against the month length
after the loop (`day < 1 || day > daysIn(month, year)`, as in the current
standard library). `none` stands for the result `(Time{}, err)` with `err`
non-nil. -/
def timeParse (value : List Char) : Option Time :=
  -- stdLongYear
  if value.length < 4 || !isDigit value 0 then none else
  match atoi (value.take 4) with
  | none => none
  | some year =>
    -- stdZeroMonth
    match getnum (value.drop 4) true with
    | none => none
    | some (month, value) =>
      if month ≤ 0 || 12 < month then none else
      -- stdZeroDay
      match getnum value true with
      | none => none
      | some (day, value) =>
        -- stdHour
        match getnum value false with
        | none => none
        | some (hour, value) =>
          if 24 ≤ hour then none else
          -- stdZeroMinute
          match getnum value true with
          | none => none
          | some (min, value) =>
            if 60 ≤ min then none else
            -- end of layout: no text may be left
            if value.length != 0 then none else
            -- validate the day of the month
            if day < 1 || day > daysIn month year then none else
            some { year := year, month := month, day := day, hour := hour, minute := min }

/-- Go `fmt.Sprintf("%d", n)` for `n ≥ 0`: the decimal digits, no padding. -/
def fmtD (n : Nat) : String := toString n

/-- Go `fmt.Sprintf("%02d", n)` for `n ≥ 0`: the decimal digits, padded on the
left with `0` to width two. -/
def fmt02d (n : Nat) : String :=
  if (toString n).length < 2 then "0" ++ toString n else toString n

/-- Source function `parseUpdatedDate(date string)` (`scan.go` lines 131-135):
`t, _ := time.Parse(layout, date)` drops the error, so a failed parse leaves
the zero `Time`; the result is `Sprintf("%d%02d%02d", t.Year(), t.Month(),
t.Day())`. -/
def parseUpdatedDate (date : String) : String :=
  let t := (timeParse date.data).getD Time.zero
  fmtD t.year ++ fmt02d t.month ++ fmt02d t.day

/-- The file system as `getUpdatedDate` sees it: the content of
`/opt/malice/UPDATED` when `os.Stat` finds it, and the error of
`ioutil.ReadFile`, nil when the read succeeds. -/
structure MarkerFile where
  content : Option String
  readErr : Option GoError

/-- Source function `getUpdatedDate()` (`scan.go` lines 122-129), with the
package variable `BuildTime` as a parameter. `none` is the exit through
`assert(err)` when the file exists and cannot be read. -/
def getUpdatedDate (BuildTime : String) (fs : MarkerFile) : Option String :=
  match fs.content with
  | none => some BuildTime               -- os.IsNotExist(err)
  | some updated =>
    match fs.readErr with
    | some _ => none                     -- assert(err)
    | none => some updated               -- return string(updated)

/-! ## The timestamp format as the specification words it -/

/-- Days of a month in the Gregorian calendar: thirty days have September,
April, June and November; February has 28, and 29 in a leap year (a year
divisible by 4, except a century year not divisible by 400). -/
def specDaysInMonth (year month : Nat) : Nat :=
  match month with
  | 4 | 6 | 9 | 11 => 30
  | 2 => if year % 4 = 0 ∧ (year % 100 ≠ 0 ∨ year % 400 = 0) then 29 else 28
  | _ => 31

/-- The fields of a `YYYYMMDDHHmm` text: twelve digits read as a four-digit
year and two-digit month, day, hour and minute. `none` when the text is not
twelve digits. -/
def stampFields (d : String) : Option Time :=
  match d.data with
  | [y1, y2, y3, y4, m1, m2, d1, d2, h1, h2, n1, n2] =>
    if [y1, y2, y3, y4, m1, m2, d1, d2, h1, h2, n1, n2].all dig then
      some { year := ((digitVal y1 * 10 + digitVal y2) * 10 + digitVal y3) * 10 + digitVal y4
             month := digitVal m1 * 10 + digitVal m2
             day := digitVal d1 * 10 + digitVal d2
             hour := digitVal h1 * 10 + digitVal h2
             minute := digitVal n1 * 10 + digitVal n2 }
    else none
  | _ => none

/-- A valid `YYYYMMDDHHmm` timestamp: twelve digits, year 0000-9999, month
01-12, day valid for that month and year, hour 00-23, minute 00-59. -/
def validStamp (d : String) : Bool :=
  match stampFields d with
  | none => false
  | some t =>
    decide (1 ≤ t.month ∧ t.month ≤ 12 ∧ 1 ≤ t.day ∧ t.day ≤ specDaysInMonth t.year t.month ∧
      t.hour ≤ 23 ∧ t.minute ≤ 59)

/-- The sample world with a scanner subprocess that fails. -/
def failingWorld : World :=
  { sampleWorld "" with runCommand := fun _ _ _ _ => ("", some ⟨"exit status 1"⟩) }

/-! ## Theorems -/

/-- When `AvScan` returns, it returns the zero-value results, both directory
changes were attempted in order, and the first one succeeded. -/
theorem AvScan_returned (timeout : Int) (w : World) (wd : WindowsDefender) (w1 : World)
    (h : AvScan timeout w = .returned wd w1) :
    wd = ⟨ResultsData.zero⟩ ∧ "/loadlibrary" ∈ w.dirs ∧
    w1 = (osChdir "/malware" { w with cwd := "/loadlibrary" }).2 := by
  unfold AvScan at h
  by_cases hd : "/loadlibrary" ∈ w.dirs
  · simp only [osChdir, hd, if_true] at h
    cases hg : w.getwdErr with
    | some e => simp [osGetwd, hg] at h
    | none =>
      simp only [osGetwd, hg] at h
      generalize (w.runCommand "/loadlibrary" timeout "./mpclient" w.path) = out at h
      obtain ⟨o, e⟩ := out
      cases e with
      | some e => simp [ParseWinDefOutput] at h
      | none =>
        simp only [ParseWinDefOutput] at h
        injection h with hv hw
        refine ⟨hv.symm, hd, ?_⟩
        rw [← hw]
        simp [osChdir]
  · simp [osChdir, hd] at h

/-- C2: a non-nil subprocess error `e` is returned unchanged together with the
zero-value `ResultsData`; with a nil subprocess error the returned error is
nil; hence the returned error is non-nil exactly when the subprocess error
is. -/
theorem parse_error_propagation (s : String) :
    (∀ e : GoError, ParseWinDefOutput s (some e) = (ResultsData.zero, some e)) ∧
    (ParseWinDefOutput s none).2 = none ∧
    (∀ err : Option GoError, (ParseWinDefOutput s err).2 ≠ none ↔ err ≠ none) ∧
    ResultsData.zero = ⟨false, "", "", ""⟩ := by
  refine ⟨fun e => rfl, rfl, ?_, rfl⟩
  intro err
  cases err <;> simp [ParseWinDefOutput]

/-- C10: with a nil subprocess error the parser returns the nil error and
`ResultsData{Infected: false, Result: "", Engine: "", Updated: ""}` for every
stdout text: the result does not depend on the text. -/
theorem parse_ignores_stdout (s : String) :
    ParseWinDefOutput s none = (⟨false, "", "", ""⟩, none) := rfl

/-- C1 (evaluation of the code at the failing input): on the EICAR transcript,
which contains the line `Threat Virus:DOS/EICAR_Test_File identified.`, and a
nil subprocess error, the parser returns `Infected = false` and the empty
`Result`, not `Infected = true` with the threat name. -/
theorem parse_eicar_not_flagged :
    ParseWinDefOutput eicarTranscript none = (⟨false, "", "", ""⟩, none) ∧
    (ParseWinDefOutput eicarTranscript none).1.Infected ≠ true ∧
    (ParseWinDefOutput eicarTranscript none).1.Result ≠ "Virus:DOS/EICAR_Test_File" := by
  refine ⟨rfl, ?_, ?_⟩
  · simp [ParseWinDefOutput, ResultsData.zero]
  · simp [ParseWinDefOutput, ResultsData.zero]

/-- C3: for every stdout text and every subprocess error the `ResultsData`
returned by `ParseWinDefOutput` has `Infected = false → Result = ""`, and the
same holds for the `Results` of every `WindowsDefender` that `AvScan`
returns. -/
theorem result_model_invariant (s : String) (err : Option GoError)
    (timeout : Int) (w : World) :
    ((ParseWinDefOutput s err).1.Infected = false →
        (ParseWinDefOutput s err).1.Result = "") ∧
    (∀ (wd : WindowsDefender) (w1 : World),
      AvScan timeout w = .returned wd w1 →
        wd.Results.Infected = false → wd.Results.Result = "") := by
  constructor
  · intro _
    cases err <;> rfl
  · intro wd w1 h _
    rw [(AvScan_returned timeout w wd w1 h).1]
    rfl

/-- C3 applied to a concrete run: the parser result on the EICAR transcript,
and the value returned by a scan that runs to completion. -/
theorem result_model_invariant_witness :
    (ParseWinDefOutput eicarTranscript none).1.Result = "" ∧
    (∃ w1, AvScan 60 (sampleWorld eicarTranscript) = .returned ⟨⟨false, "", "", ""⟩⟩ w1) ∧
    (⟨⟨false, "", "", ""⟩⟩ : WindowsDefender).Results.Result = "" :=
  ⟨(result_model_invariant eicarTranscript none 60 (sampleWorld eicarTranscript)).1 rfl,
   ⟨_, rfl⟩,
   (result_model_invariant eicarTranscript none 60 (sampleWorld eicarTranscript)).2
      ⟨⟨false, "", "", ""⟩⟩ _ rfl rfl⟩

/-! ### Lemmas on the parser of `time.Parse` -/

theorem getnum_fixed_some (s r : List Char) (n : Nat) (h : getnum s true = some (n, r)) :
    ∃ a b, s = a :: b :: r ∧ dig a = true ∧ dig b = true ∧
      n = digitVal a * 10 + digitVal b := by
  match s with
  | [] => simp [getnum, isDigit] at h
  | [a] => simp [getnum, isDigit] at h
  | a :: b :: t =>
    by_cases ha : dig a = true <;> by_cases hb : dig b = true <;>
      simp [getnum, isDigit, ha, hb] at h
    exact ⟨a, b, by rw [h.2], ha, hb, h.1.symm⟩

theorem getnum_free_some (s r : List Char) (n : Nat) (h : getnum s false = some (n, r)) :
    (∃ a b, s = a :: b :: r ∧ dig a = true ∧ dig b = true ∧
      n = digitVal a * 10 + digitVal b) ∨
    (∃ a, s = a :: r ∧ dig a = true ∧ isDigit r 0 = false) := by
  match s with
  | [] => simp [getnum, isDigit] at h
  | [a] =>
    by_cases ha : dig a = true <;> simp [getnum, isDigit, ha] at h
    right
    exact ⟨a, by rw [h.2], ha, by rw [h.2]; simp [isDigit]⟩
  | a :: b :: t =>
    by_cases ha : dig a = true <;> by_cases hb : dig b = true <;>
      simp [getnum, isDigit, ha, hb] at h
    · left
      exact ⟨a, b, by rw [h.2], ha, hb, h.1.symm⟩
    · right
      exact ⟨a, by rw [h.2], ha, by rw [← h.2]; simp [isDigit, hb]⟩

theorem getnum_fixed_none_of_not_digit (r : List Char) (h : isDigit r 0 = false) :
    getnum r true = none := by
  simp [getnum, h]

theorem atoi_four_some (y1 y2 y3 y4 : Char) (year : Nat)
    (h : atoi [y1, y2, y3, y4] = some year) :
    dig y1 = true ∧ dig y2 = true ∧ dig y3 = true ∧ dig y4 = true ∧
    year = ((digitVal y1 * 10 + digitVal y2) * 10 + digitVal y3) * 10 + digitVal y4 := by
  unfold atoi at h
  split at h
  · rename_i hall
    simp only [List.all_cons, List.all_nil, Bool.and_true, Bool.and_eq_true] at hall
    simp only [List.foldl, Nat.zero_mul, Nat.zero_add, Option.some.injEq] at h
    exact ⟨hall.1, hall.2.1, hall.2.2.1, hall.2.2.2, h.symm⟩
  · cases h

theorem length_ge_four (l : List Char) (h : ¬ l.length < 4) :
    ∃ y1 y2 y3 y4 rest, l = y1 :: y2 :: y3 :: y4 :: rest := by
  match l with
  | [] => simp at h
  | [_] => simp at h
  | [_, _] => simp at h
  | [_, _, _] => simp at h
  | y1 :: y2 :: y3 :: y4 :: rest => exact ⟨y1, y2, y3, y4, rest, rfl⟩

/-- A successful parse: the value is twelve digits and every field is in
range. -/
theorem timeParse_some (l : List Char) (t : Time) (h : timeParse l = some t) :
    ∃ y1 y2 y3 y4 m1 m2 d1 d2 h1 h2 n1 n2,
      l = [y1, y2, y3, y4, m1, m2, d1, d2, h1, h2, n1, n2] ∧
      [y1, y2, y3, y4, m1, m2, d1, d2, h1, h2, n1, n2].all dig = true ∧
      t = { year := ((digitVal y1 * 10 + digitVal y2) * 10 + digitVal y3) * 10 + digitVal y4
            month := digitVal m1 * 10 + digitVal m2
            day := digitVal d1 * 10 + digitVal d2
            hour := digitVal h1 * 10 + digitVal h2
            minute := digitVal n1 * 10 + digitVal n2 } ∧
      1 ≤ t.month ∧ t.month ≤ 12 ∧ 1 ≤ t.day ∧ t.day ≤ daysIn t.month t.year ∧
      t.hour ≤ 23 ∧ t.minute ≤ 59 := by
  unfold timeParse at h
  split at h
  · cases h
  rename_i hguard
  simp only [Bool.or_eq_true, decide_eq_true_eq, not_or] at hguard
  obtain ⟨y1, y2, y3, y4, rest, rfl⟩ := length_ge_four l hguard.1
  simp only [List.take, List.drop] at h
  split at h
  · cases h
  rename_i year hyear
  obtain ⟨hy1, hy2, hy3, hy4, rfl⟩ := atoi_four_some _ _ _ _ _ hyear
  split at h
  · cases h
  rename_i month r1 hmonth
  obtain ⟨m1, m2, rfl, hm1, hm2, rfl⟩ := getnum_fixed_some _ _ _ hmonth
  split at h
  · cases h
  rename_i hmr
  split at h
  · cases h
  rename_i day r2 hday
  obtain ⟨d1, d2, rfl, hd1, hd2, rfl⟩ := getnum_fixed_some _ _ _ hday
  split at h
  · cases h
  rename_i hour r3 hhour
  rcases getnum_free_some _ _ _ hhour with ⟨h1, h2, rfl, hh1, hh2, rfl⟩ | ⟨h1, rfl, _, hnd⟩
  · split at h
    · cases h
    rename_i hhr
    split at h
    · cases h
    rename_i min r4 hmin
    obtain ⟨n1, n2, rfl, hn1, hn2, rfl⟩ := getnum_fixed_some _ _ _ hmin
    split at h
    · cases h
    rename_i hmn
    split at h
    · cases h
    rename_i hend
    split at h
    · cases h
    rename_i hdr
    simp only [bne_iff_ne, ne_eq, not_not, List.length_eq_zero] at hend
    subst hend
    simp only [Option.some.injEq] at h
    subst h
    simp only [Bool.or_eq_true, decide_eq_true_eq, not_or, not_lt, not_le] at hmr hdr
    refine ⟨y1, y2, y3, y4, m1, m2, d1, d2, h1, h2, n1, n2, rfl, ?_, rfl, ?_⟩
    · simp [hy1, hy2, hy3, hy4, hm1, hm2, hd1, hd2, hh1, hh2, hn1, hn2]
    · simp only
      omega
  · rw [getnum_fixed_none_of_not_digit _ hnd] at h
    split at h
    · cases h
    · cases h

theorem getnum_two (a b : Char) (r : List Char) (fixed : Bool)
    (ha : dig a = true) (hb : dig b = true) :
    getnum (a :: b :: r) fixed = some (digitVal a * 10 + digitVal b, r) := by
  simp [getnum, isDigit, ha, hb]

theorem daysIn_eq_spec (year month : Nat) (h1 : 1 ≤ month) (h12 : month ≤ 12) :
    daysIn month year = specDaysInMonth year month := by
  interval_cases month <;> simp [daysIn, specDaysInMonth, daysBefore, isLeap]

/-- Twelve digits with every field in range parse to exactly these fields. -/
theorem timeParse_digits (y1 y2 y3 y4 m1 m2 d1 d2 h1 h2 n1 n2 : Char)
    (hall : [y1, y2, y3, y4, m1, m2, d1, d2, h1, h2, n1, n2].all dig = true)
    (hm1 : 1 ≤ digitVal m1 * 10 + digitVal m2) (hm12 : digitVal m1 * 10 + digitVal m2 ≤ 12)
    (hd1 : 1 ≤ digitVal d1 * 10 + digitVal d2)
    (hdn : digitVal d1 * 10 + digitVal d2 ≤
      daysIn (digitVal m1 * 10 + digitVal m2)
        (((digitVal y1 * 10 + digitVal y2) * 10 + digitVal y3) * 10 + digitVal y4))
    (hh : digitVal h1 * 10 + digitVal h2 ≤ 23) (hn : digitVal n1 * 10 + digitVal n2 ≤ 59) :
    timeParse [y1, y2, y3, y4, m1, m2, d1, d2, h1, h2, n1, n2] =
      some { year := ((digitVal y1 * 10 + digitVal y2) * 10 + digitVal y3) * 10 + digitVal y4
             month := digitVal m1 * 10 + digitVal m2
             day := digitVal d1 * 10 + digitVal d2
             hour := digitVal h1 * 10 + digitVal h2
             minute := digitVal n1 * 10 + digitVal n2 } := by
  simp only [List.all_cons, List.all_nil, Bool.and_true, Bool.and_eq_true] at hall
  obtain ⟨a1, a2, a3, a4, a5, a6, a7, a8, a9, a10, a11, a12⟩ := hall
  have hatoi : atoi [y1, y2, y3, y4] =
      some (((digitVal y1 * 10 + digitVal y2) * 10 + digitVal y3) * 10 + digitVal y4) := by
    simp [atoi, a1, a2, a3, a4]
  have g1 : ¬ (digitVal m1 * 10 + digitVal m2 ≤ 0 ∨ 12 < digitVal m1 * 10 + digitVal m2) := by
    omega
  have g2 : ¬ (24 ≤ digitVal h1 * 10 + digitVal h2) := by omega
  have g3 : ¬ (60 ≤ digitVal n1 * 10 + digitVal n2) := by omega
  have g4 : ¬ (digitVal d1 * 10 + digitVal d2 < 1 ∨ digitVal d1 * 10 + digitVal d2 >
      daysIn (digitVal m1 * 10 + digitVal m2)
        (((digitVal y1 * 10 + digitVal y2) * 10 + digitVal y3) * 10 + digitVal y4)) := by
    omega
  have g0 : isDigit [y1, y2, y3, y4, m1, m2, d1, d2, h1, h2, n1, n2] 0 = true := by
    simp [isDigit, a1]
  unfold timeParse
  simp only [List.take, List.drop, hatoi, getnum_two, a5, a6, a7, a8, a9, a10, a11, a12, g0,
    List.length_cons, List.length_nil]
  simp only [Bool.or_eq_true, decide_eq_true_eq, g1, g2, g3, g4, if_false]
  simp

theorem stampFields_of_data (d : String) (y1 y2 y3 y4 m1 m2 d1 d2 h1 h2 n1 n2 : Char)
    (hl : d.data = [y1, y2, y3, y4, m1, m2, d1, d2, h1, h2, n1, n2])
    (hall : [y1, y2, y3, y4, m1, m2, d1, d2, h1, h2, n1, n2].all dig = true) :
    stampFields d =
      some { year := ((digitVal y1 * 10 + digitVal y2) * 10 + digitVal y3) * 10 + digitVal y4
             month := digitVal m1 * 10 + digitVal m2
             day := digitVal d1 * 10 + digitVal d2
             hour := digitVal h1 * 10 + digitVal h2
             minute := digitVal n1 * 10 + digitVal n2 } := by
  unfold stampFields
  rw [hl]
  simp only [hall, if_true]

theorem stampFields_some (d : String) (t : Time) (h : stampFields d = some t) :
    ∃ y1 y2 y3 y4 m1 m2 d1 d2 h1 h2 n1 n2,
      d.data = [y1, y2, y3, y4, m1, m2, d1, d2, h1, h2, n1, n2] ∧
      [y1, y2, y3, y4, m1, m2, d1, d2, h1, h2, n1, n2].all dig = true ∧
      t = { year := ((digitVal y1 * 10 + digitVal y2) * 10 + digitVal y3) * 10 + digitVal y4
            month := digitVal m1 * 10 + digitVal m2
            day := digitVal d1 * 10 + digitVal d2
            hour := digitVal h1 * 10 + digitVal h2
            minute := digitVal n1 * 10 + digitVal n2 } := by
  unfold stampFields at h
  split at h
  · rename_i y1 y2 y3 y4 m1 m2 d1 d2 h1 h2 n1 n2 hl
    split at h
    · rename_i hall
      simp only [Option.some.injEq] at h
      exact ⟨y1, y2, y3, y4, m1, m2, d1, d2, h1, h2, n1, n2, hl, hall, h.symm⟩
    · cases h
  · cases h

/-- The parser of `time.Parse` for the layout `200601021504` accepts exactly
the valid timestamps and reads their fields. -/
theorem timeParse_eq_spec (d : String) :
    timeParse d.data = if validStamp d = true then stampFields d else none := by
  cases hp : timeParse d.data with
  | some t =>
    obtain ⟨y1, y2, y3, y4, m1, m2, d1, d2, h1, h2, n1, n2, hl, hall, ht, r1, r2, r3, r4, r5, r6⟩ :=
      timeParse_some _ _ hp
    have hs := stampFields_of_data d _ _ _ _ _ _ _ _ _ _ _ _ hl hall
    rw [← ht] at hs
    rw [daysIn_eq_spec _ _ r1 r2] at r4
    have hv : validStamp d = true := by
      unfold validStamp
      rw [hs]
      simp only [decide_eq_true_eq]
      exact ⟨r1, r2, r3, r4, r5, r6⟩
    rw [hv, hs]
    rfl
  | none =>
    cases hv : validStamp d with
    | false => simp
    | true =>
      exfalso
      unfold validStamp at hv
      split at hv
      · cases hv
      · rename_i t hs
        simp only [decide_eq_true_eq] at hv
        obtain ⟨r1, r2, r3, r4, r5, r6⟩ := hv
        obtain ⟨y1, y2, y3, y4, m1, m2, d1, d2, h1, h2, n1, n2, hl, hall, rfl⟩ :=
          stampFields_some d t hs
        rw [← daysIn_eq_spec _ _ r1 r2] at r4
        rw [hl, timeParse_digits _ _ _ _ _ _ _ _ _ _ _ _ hall r1 r2 r3 r4 r5 r6] at hp
        cases hp

/-! ### Lemmas on the decimal rendering of `Sprintf` -/

theorem dig_bounds (c : Char) (h : dig c = true) : 48 ≤ c.toNat ∧ c.toNat ≤ 57 := by
  simp only [dig, Bool.and_eq_true, decide_eq_true_eq] at h
  obtain ⟨h1, h2⟩ := h
  rw [Char.le_def] at h1 h2
  exact ⟨h1, h2⟩

theorem digitVal_le (c : Char) (h : dig c = true) : digitVal c ≤ 9 := by
  have hb := dig_bounds c h
  have : digitVal c = c.toNat - 48 := rfl
  omega

theorem digitChar_digitVal (c : Char) (h : dig c = true) : Nat.digitChar (digitVal c) = c := by
  have hb := dig_bounds c h
  have hc : c = Char.ofNat c.toNat := by simp
  have hcases : c.toNat = 48 ∨ c.toNat = 49 ∨ c.toNat = 50 ∨ c.toNat = 51 ∨ c.toNat = 52 ∨
      c.toNat = 53 ∨ c.toNat = 54 ∨ c.toNat = 55 ∨ c.toNat = 56 ∨ c.toNat = 57 := by omega
  rw [hc]
  unfold digitVal
  rcases hcases with h | h | h | h | h | h | h | h | h | h <;> rw [h] <;> rfl

theorem toDigitsCore_step (fuel n : Nat) (acc : List Char) (h : 10 ≤ n) :
    Nat.toDigitsCore 10 (fuel + 1) n acc =
      Nat.toDigitsCore 10 fuel (n / 10) (Nat.digitChar (n % 10) :: acc) := by
  have : n / 10 ≠ 0 := by omega
  simp [Nat.toDigitsCore, this]

theorem toDigitsCore_last (fuel n : Nat) (acc : List Char) (h : n < 10) :
    Nat.toDigitsCore 10 (fuel + 1) n acc = Nat.digitChar n :: acc := by
  have h1 : n / 10 = 0 := by omega
  have h2 : n % 10 = n := by omega
  simp [Nat.toDigitsCore, h1, h2]

theorem toDigits_one (a : Nat) (ha : a ≤ 9) : Nat.toDigits 10 a = [Nat.digitChar a] := by
  unfold Nat.toDigits
  exact toDigitsCore_last _ _ _ (by omega)

theorem toDigits_two (a b : Nat) (ha : 1 ≤ a) (ha9 : a ≤ 9) (hb : b ≤ 9) :
    Nat.toDigits 10 (a * 10 + b) = [Nat.digitChar a, Nat.digitChar b] := by
  unfold Nat.toDigits
  have e : a * 10 + b + 1 = (a * 10 + b - 1) + 1 + 1 := by omega
  rw [e, toDigitsCore_step _ _ _ (by omega), toDigitsCore_last _ _ _ (by omega)]
  have h1 : (a * 10 + b) % 10 = b := by omega
  have h2 : (a * 10 + b) / 10 = a := by omega
  simp only [h1, h2]

theorem toDigits_four (a b c d : Nat) (ha : 1 ≤ a) (ha9 : a ≤ 9) (hb : b ≤ 9) (hc : c ≤ 9)
    (hd : d ≤ 9) :
    Nat.toDigits 10 (((a * 10 + b) * 10 + c) * 10 + d) =
      [Nat.digitChar a, Nat.digitChar b, Nat.digitChar c, Nat.digitChar d] := by
  unfold Nat.toDigits
  have e : ((a * 10 + b) * 10 + c) * 10 + d + 1 =
      (((a * 10 + b) * 10 + c) * 10 + d - 3) + 1 + 1 + 1 + 1 := by omega
  rw [e, toDigitsCore_step _ _ _ (by omega), toDigitsCore_step _ _ _ (by omega),
    toDigitsCore_step _ _ _ (by omega), toDigitsCore_last _ _ _ (by omega)]
  have h1 : (((a * 10 + b) * 10 + c) * 10 + d) % 10 = d := by omega
  have h2 : (((a * 10 + b) * 10 + c) * 10 + d) / 10 = (a * 10 + b) * 10 + c := by omega
  have h3 : ((a * 10 + b) * 10 + c) % 10 = c := by omega
  have h4 : ((a * 10 + b) * 10 + c) / 10 = a * 10 + b := by omega
  have h5 : (a * 10 + b) % 10 = b := by omega
  have h6 : (a * 10 + b) / 10 = a := by omega
  simp only [h1, h2, h3, h4, h5, h6]

theorem toString_nat (n : Nat) : toString n = String.mk (Nat.toDigits 10 n) := rfl

/-- The verb `%02d` of a two-digit field gives back its two digits. -/
theorem fmt02d_two (a b : Char) (ha : dig a = true) (hb : dig b = true) :
    fmt02d (digitVal a * 10 + digitVal b) = String.mk [a, b] := by
  have la := digitVal_le a ha
  have lb := digitVal_le b hb
  have ca := digitChar_digitVal a ha
  have cb := digitChar_digitVal b hb
  unfold fmt02d
  rw [toString_nat]
  by_cases h0 : digitVal a = 0
  · rw [h0] at ca
    rw [h0, Nat.zero_mul, Nat.zero_add, toDigits_one _ lb, cb, ← ca]
    rfl
  · rw [toDigits_two _ _ (by omega) la lb, ca, cb]
    rfl

/-- The verb `%d` of a four-digit year that does not start with `0` gives back its
four digits. -/
theorem fmtD_four (a b c d : Char) (ha : dig a = true) (hb : dig b = true)
    (hc : dig c = true) (hd : dig d = true)
    (h : 1000 ≤ ((digitVal a * 10 + digitVal b) * 10 + digitVal c) * 10 + digitVal d) :
    fmtD (((digitVal a * 10 + digitVal b) * 10 + digitVal c) * 10 + digitVal d) =
      String.mk [a, b, c, d] := by
  have la := digitVal_le a ha
  have lb := digitVal_le b hb
  have lc := digitVal_le c hc
  have ld := digitVal_le d hd
  unfold fmtD
  rw [toString_nat, toDigits_four _ _ _ _ (by omega) la lb lc ld,
    digitChar_digitVal a ha, digitChar_digitVal b hb, digitChar_digitVal c hc,
    digitChar_digitVal d hd]

/-! ### The working directory around `AvScan` -/

/-- C5 (counterexample): started in `/tmp`, a scan that runs to completion
leaves the process in `/malware`, and a scan whose subprocess fails ends the
process in `/loadlibrary`; in neither case is the directory `/tmp` again. -/
theorem AvScan_cwd_not_restored :
    (sampleWorld "").cwd = "/tmp" ∧
    (∃ wd w1, AvScan 60 (sampleWorld "") = .returned wd w1 ∧ w1.cwd = "/malware") ∧
    (AvScan 60 (sampleWorld "")).world.cwd ≠ (sampleWorld "").cwd ∧
    (∃ e w1, AvScan 60 failingWorld = .fatal e w1 ∧ w1.cwd = "/loadlibrary") := by
  refine ⟨rfl, ⟨_, _, rfl, rfl⟩, by decide, ⟨_, _, rfl, rfl⟩⟩

/-- C5 (amended): when `AvScan` returns and `/malware` can be entered, the
working directory afterwards is the fixed directory `/malware`, whatever it
was before the call; when `AvScan` ends the process through `assert`, the
deferred directory change does not run and the working directory is
`/loadlibrary` if that directory was entered and the initial one otherwise. -/
theorem AvScan_cwd (timeout : Int) (w : World) :
    (∀ wd w1, AvScan timeout w = .returned wd w1 → "/malware" ∈ w.dirs →
      w1.cwd = "/malware") ∧
    (∀ e w1, AvScan timeout w = .fatal e w1 →
      w1.cwd = if "/loadlibrary" ∈ w.dirs then "/loadlibrary" else w.cwd) := by
  constructor
  · intro wd w1 h hm
    rw [(AvScan_returned timeout w wd w1 h).2.2]
    simp [osChdir, hm]
  · intro e w1 h
    unfold AvScan at h
    by_cases hd : "/loadlibrary" ∈ w.dirs
    · simp only [osChdir, hd, if_true] at h
      cases hg : w.getwdErr with
      | some e1 =>
        simp only [osGetwd, hg, Outcome.fatal.injEq] at h
        rw [← h.2]
        simp [hd]
      | none =>
        simp only [osGetwd, hg] at h
        generalize (w.runCommand "/loadlibrary" timeout "./mpclient" w.path) = out at h
        obtain ⟨o, e2⟩ := out
        cases e2 with
        | some e3 =>
          simp only [ParseWinDefOutput, Outcome.fatal.injEq] at h
          rw [← h.2]
          simp [hd]
        | none => simp [ParseWinDefOutput] at h
    · simp only [osChdir, hd, if_false, Outcome.fatal.injEq] at h
      rw [← h.2]
      simp [hd]

/-- C5 (amended) on concrete runs: started in `/tmp`, a completed scan ends in
`/malware` and a failed one in `/loadlibrary`. -/
theorem AvScan_cwd_witness :
    (AvScan 60 (sampleWorld "")).world.cwd = "/malware" ∧
    (AvScan 60 failingWorld).world.cwd =
      if "/loadlibrary" ∈ failingWorld.dirs then "/loadlibrary" else failingWorld.cwd :=
  ⟨(AvScan_cwd 60 (sampleWorld "")).1 ⟨⟨false, "", "", ""⟩⟩ (AvScan 60 (sampleWorld "")).world
      rfl (by decide),
   (AvScan_cwd 60 failingWorld).2 ⟨"exit status 1"⟩ (AvScan 60 failingWorld).world rfl⟩

/-! ### The update date -/

/-- C6 (counterexample): with the marker content `201703051230` the resolver
returns the raw twelve characters, while `parseUpdatedDate` of that content is
`20170305`. -/
theorem getUpdatedDate_not_normalized :
    validStamp "201703051230" = true ∧
    getUpdatedDate "201701010000" ⟨some "201703051230", none⟩ = some "201703051230" ∧
    parseUpdatedDate "201703051230" = "20170305" ∧
    getUpdatedDate "201701010000" ⟨some "201703051230", none⟩ ≠
      some (parseUpdatedDate "201703051230") := by
  decide

/-- C6 (amended): when the marker file exists and is read without error,
`getUpdatedDate` returns its content unchanged, whatever the content is; when
the file does not exist it returns `BuildTime`. -/
theorem getUpdatedDate_raw (BuildTime d : String) :
    getUpdatedDate BuildTime ⟨some d, none⟩ = some d ∧
    (∀ e, getUpdatedDate BuildTime ⟨none, e⟩ = some BuildTime) :=
  ⟨rfl, fun _ => rfl⟩

/-- C7 (counterexample): `099901011200` is a valid timestamp of the year 0999,
and `parseUpdatedDate` returns the seven characters `9990101`, not the prefix
`09990101`. -/
theorem parseUpdatedDate_drops_leading_zero :
    validStamp "099901011200" = true ∧
    parseUpdatedDate "099901011200" = "9990101" ∧
    parseUpdatedDate "099901011200" ≠ String.mk ("099901011200".data.take 8) ∧
    String.take "099901011200" 8 = String.mk ("099901011200".data.take 8) := by
  refine ⟨by decide, by decide, by decide, String.take_eq _ _⟩

/-- C7 (amended): for every valid `YYYYMMDDHHmm` timestamp `d`,
`parseUpdatedDate d` is the year in decimal without leading zeros followed by
the four characters `MMDD` of `d`; when the year is at least 1000 this is
exactly the first eight characters of `d`. -/
theorem parseUpdatedDate_valid (d : String) (hv : validStamp d = true) :
    ∃ t, stampFields d = some t ∧
      parseUpdatedDate d = fmtD t.year ++ String.take (String.drop d 4) 4 ∧
      (1000 ≤ t.year → parseUpdatedDate d = String.take d 8) := by
  have hp := timeParse_eq_spec d
  rw [hv] at hp
  simp only [if_true] at hp
  cases hs : stampFields d with
  | none => simp [validStamp, hs] at hv
  | some t =>
    obtain ⟨y1, y2, y3, y4, m1, m2, d1, d2, h1, h2, n1, n2, hl, hall, rfl⟩ :=
      stampFields_some d _ hs
    refine ⟨_, rfl, ?_⟩
    have hall2 := hall
    simp only [List.all_cons, List.all_nil, Bool.and_true, Bool.and_eq_true] at hall2
    obtain ⟨a1, a2, a3, a4, a5, a6, a7, a8, -⟩ := hall2
    have hres : parseUpdatedDate d =
        fmtD (((digitVal y1 * 10 + digitVal y2) * 10 + digitVal y3) * 10 + digitVal y4) ++
          String.mk [m1, m2, d1, d2] := by
      unfold parseUpdatedDate
      rw [hp, hs]
      simp only [Option.getD_some]
      rw [fmt02d_two m1 m2 a5 a6, fmt02d_two d1 d2 a7 a8, String.append_assoc]
      rfl
    have hmid : String.take (String.drop d 4) 4 = String.mk [m1, m2, d1, d2] := by
      rw [String.take_eq, String.drop_eq, hl]
      rfl
    have hpre : String.take d 8 = String.mk [y1, y2, y3, y4, m1, m2, d1, d2] := by
      rw [String.take_eq, hl]
      rfl
    refine ⟨by rw [hres, hmid], ?_⟩
    intro hy
    rw [hres, hpre, fmtD_four y1 y2 y3 y4 a1 a2 a3 a4 hy]
    rfl

/-- C7 (amended) at `201703051230`. -/
theorem parseUpdatedDate_valid_witness :
    validStamp "201703051230" = true ∧
    ∃ t, stampFields "201703051230" = some t ∧
      parseUpdatedDate "201703051230" =
        fmtD t.year ++ String.take (String.drop "201703051230" 4) 4 ∧
      (1000 ≤ t.year → parseUpdatedDate "201703051230" = String.take "201703051230" 8) :=
  ⟨by decide, parseUpdatedDate_valid "201703051230" (by decide)⟩

/-- C8: `parseUpdatedDate` is a total function, and on every input that is not
a valid `YYYYMMDDHHmm` timestamp it returns the rendering of the zero date
(year 1, month 1, day 1) under `%d%02d%02d`, which is `10101`. -/
theorem parseUpdatedDate_invalid (d : String) (hv : validStamp d = false) :
    parseUpdatedDate d = fmtD Time.zero.year ++ fmt02d Time.zero.month ++ fmt02d Time.zero.day ∧
    parseUpdatedDate d = "10101" ∧
    Time.zero = ⟨1, 1, 1, 0, 0⟩ := by
  have hp := timeParse_eq_spec d
  rw [hv] at hp
  simp only [Bool.false_eq_true, if_false] at hp
  have h1 : parseUpdatedDate d =
      fmtD Time.zero.year ++ fmt02d Time.zero.month ++ fmt02d Time.zero.day := by
    unfold parseUpdatedDate
    rw [hp]
    rfl
  refine ⟨h1, ?_, rfl⟩
  rw [h1]
  decide

/-- C8 at the malformed inputs named in the claim: month 13, day 32, hour 24,
a text that is too short, a non-digit, and the empty string. -/
theorem parseUpdatedDate_invalid_witness :
    validStamp "201713011200" = false ∧ parseUpdatedDate "201713011200" = "10101" ∧
    parseUpdatedDate "201701321200" = "10101" ∧
    parseUpdatedDate "201701012400" = "10101" ∧
    parseUpdatedDate "20170101" = "10101" ∧
    parseUpdatedDate "2017-01-01 12:00" = "10101" ∧
    parseUpdatedDate "" = "10101" :=
  ⟨by decide, (parseUpdatedDate_invalid "201713011200" (by decide)).2.1,
   (parseUpdatedDate_invalid "201701321200" (by decide)).2.1,
   (parseUpdatedDate_invalid "201701012400" (by decide)).2.1,
   (parseUpdatedDate_invalid "20170101" (by decide)).2.1,
   (parseUpdatedDate_invalid "2017-01-01 12:00" (by decide)).2.1,
   (parseUpdatedDate_invalid "" (by decide)).2.1⟩

/-! ### The web handler and the command-line action -/

/-- C4 (evaluation of the code): on a request for which `r.FormFile("malware")`
returns the nil file and an error (no multipart form, or no part `malware`),
the handler calls `WriteHeader(400)` and writes the message, and then, the
branch having no `return`, does not finish the request: it ends in a run-time
panic on the nil file instead of returning. No temporary file is staged and
`AvScan` is not called only because of that panic: on the request whose part
`malware` cannot be opened, where `r.FormFile` returns an error with a file
that is not nil, the same handler stages a file, calls `AvScan` once and
appends the JSON result to the 400 response. -/
theorem webAvScan_missing_file (r : Request) (w : World) (e : GoError)
    (h : r.FormFile "malware" = (none, some e)) :
    ((webAvScan .fresh r w).exit = .panicked ∧
     (webAvScan .fresh r w).exit ≠ .returned ∧
     (webAvScan .fresh r w).resp.status = some 400 ∧
     (webAvScan .fresh r w).resp.body = [.text "Please supply a valid file to scan.\n"] ∧
     (webAvScan .fresh r w).scans = 0 ∧
     (webAvScan .fresh r w).world.tmpFiles = w.tmpFiles) ∧
    ((brokenUploadRequest.FormFile "malware").2 ≠ none ∧
     (webAvScan .fresh brokenUploadRequest (sampleWorld "")).scans = 1 ∧
     (webAvScan .fresh brokenUploadRequest (sampleWorld "")).exit = .returned ∧
     (webAvScan .fresh brokenUploadRequest (sampleWorld "")).resp.status = some 400 ∧
     (webAvScan .fresh brokenUploadRequest (sampleWorld "")).resp.body =
       [.text "Please supply a valid file to scan.\n", .json ⟨⟨false, "", "", ""⟩⟩]) := by
  constructor
  · unfold webAvScan
    rw [h]
    exact ⟨rfl, by simp, rfl, rfl, rfl, rfl⟩
  · exact ⟨by decide, by decide, by decide, by decide, by decide⟩

/-- C4 on the form that has a part `other` and no part `malware`: the handler
panics after writing status 400. -/
theorem webAvScan_missing_file_witness :
    noMalwareRequest.FormFile "malware" = (none, some ⟨"http: no such file"⟩) ∧
    (webAvScan .fresh noMalwareRequest (sampleWorld "")).exit = .panicked ∧
    (webAvScan .fresh noMalwareRequest (sampleWorld "")).resp.status = some 400 ∧
    (webAvScan .fresh noMalwareRequest (sampleWorld "")).scans = 0 :=
  ⟨by decide,
   (webAvScan_missing_file noMalwareRequest (sampleWorld "")
      ⟨"http: no such file"⟩ (by decide)).1.1,
   (webAvScan_missing_file noMalwareRequest (sampleWorld "")
      ⟨"http: no such file"⟩ (by decide)).1.2.2.1,
   (webAvScan_missing_file noMalwareRequest (sampleWorld "")
      ⟨"http: no such file"⟩ (by decide)).1.2.2.2.2.1⟩

/-- C9 (evaluation of the code): the action looks the webhook toggle up under
the name `post`, which no flag declares, so for every command line and every
world no HTTP POST is issued; with the callback flag set, the table flag not
set and a file argument, the run writes the database record and prints the
JSON to standard output instead. -/
theorem Action_never_posts :
    (∀ (c : Context) (w : World), ∀ ev ∈ (Action c w).events, ev.isPost = false) ∧
    (∀ c : Context, c.Bool "post" = false) ∧
    callbackContext.Bool "callback" = true ∧ callbackContext.Bool "table" = false ∧
    (Action callbackContext (sampleWorld eicarTranscript)).events =
      [.dbInit "", .dbWrite "sha" "windows-defender" "av" ⟨false, "", "", ""⟩,
       .printJSON ⟨⟨false, "", "", ""⟩⟩] ∧
    (Action callbackContext (sampleWorld eicarTranscript)).exit = .returned := by
  have hpost : ∀ c : Context, c.Bool "post" = false := by
    intro c
    simp [Context.Bool]
  refine ⟨?_, hpost, by decide, by decide, by decide, by decide⟩
  intro c w ev hev
  unfold Action at hev
  split at hev
  · simp at hev
  · split at hev
    · simp at hev
    · dsimp only at hev
      split at hev
      · simp at hev
      · split at hev
        · simp at hev
        · split at hev
          · simp only [List.mem_cons, List.mem_singleton, List.not_mem_nil, or_false] at hev
            rcases hev with rfl | rfl <;> rfl
          · rw [hpost c] at hev
            split at hev
            · simp only [List.cons_append, List.nil_append, List.mem_cons, List.mem_singleton,
                List.not_mem_nil, or_false] at hev
              rcases hev with rfl | rfl | rfl <;> rfl
            · simp only [Bool.false_eq_true, if_false, List.cons_append, List.nil_append,
                List.mem_cons, List.mem_singleton, List.not_mem_nil, or_false] at hev
              rcases hev with rfl | rfl | rfl <;> rfl

end WinDef
